import Mathlib

/-!
Verification of the asset-identifier model, unit converter and provider
dispatcher of the blockchain-api gateway.

JavaScript strings are modelled as `String` (lists of characters); `BigInt`
values as `Nat` (all quantities in the code are non-negative); thrown
exceptions as `Except`; `undefined`-able values as `Option`.  Upstream
providers are modelled as oracle functions returning response envelopes,
so that dispatch and error normalization can be stated for every possible
provider behaviour.  `Date.now()` is modelled as the constant 0: no claim
concerns real time.
-/

/-! ## Character-list utilities (JavaScript string primitives) -/

/-- Model of the JavaScript `s.split(sep)` for a one-character separator:
always returns a non-empty list of (possibly empty) segments. -/
def splitOnChar (sep : Char) : List Char → List (List Char)
  | [] => [[]]
  | c :: rest =>
    if c = sep then [] :: splitOnChar sep rest
    else
      match splitOnChar sep rest with
      | [] => [[c]]
      | s :: ss => (c :: s) :: ss

/-- Model of the JavaScript `parts.join(sep)` for a one-character separator. -/
def joinChar (sep : Char) : List (List Char) → List Char
  | [] => []
  | [a] => a
  | a :: rest => a ++ sep :: joinChar sep rest

/-- Big-endian decimal digits of `n`, with explicit fuel (the recursion
divides by 10, so fuel `n` is always enough). -/
def digitsAux : Nat → Nat → List Char
  | 0, _ => []
  | fuel + 1, n =>
    if n = 0 then [] else digitsAux fuel (n / 10) ++ [Nat.digitChar (n % 10)]

/-- Model of the JavaScript `BigInt.prototype.toString` (decimal). -/
def natToDecChars (n : Nat) : List Char :=
  if n = 0 then ['0'] else digitsAux n n

/-- Numeric value of a decimal digit character. -/
def charVal (c : Char) : Nat := c.toNat - '0'.toNat

/-- Model of the JavaScript `BigInt(s)` on a string of decimal digits. -/
def decCharsToNat (l : List Char) : Nat :=
  l.foldl (fun a c => 10 * a + charVal c) 0

/-- Model of `s.padStart(d, "0")`. -/
def padStartZeros (d : Nat) (l : List Char) : List Char :=
  List.replicate (d - l.length) '0' ++ l

/-- Model of `s.replace(/0+$/, "")`: drop trailing zero characters. -/
def stripTrailingZeros (l : List Char) : List Char :=
  (l.reverse.dropWhile (fun c => c == '0')).reverse

/-! ## Unit converter (src/data/parser.ts)

`weiToEther` and `satoshiToBitcoin` in the source are textually identical up
to the decimal count (18 vs 8), so the common body is written once with the
decimal count as a parameter and specialized below. -/

/-- Base-unit amount to human-decimal string, with `d` decimals.  Mirrors the
body of `weiToEther` / `satoshiToBitcoin` applied to the parsed `BigInt`. -/
def toHumanChars (d : Nat) (b : Nat) : List Char :=
  let q := b / 10 ^ d
  let r := b % 10 ^ d
  if r = 0 then natToDecChars q
  else
    let remainderStr := padStartZeros d (natToDecChars r)
    let decimalPart := stripTrailingZeros remainderStr
    if decimalPart = [] then natToDecChars q
    else natToDecChars q ++ '.' :: decimalPart

/-- Human-decimal string to base-unit amount, with `d` decimals.  Mirrors the
body of `etherToWei` / `bitcoinToSatoshi`: split on the first dot, pad or
truncate the fractional part to exactly `d` digits, recombine. -/
def toBaseChars (d : Nat) (l : List Char) : Nat :=
  let integerPart := l.takeWhile (fun c => c != '.')
  let rest := (l.dropWhile (fun c => c != '.')).drop 1
  let decimalPart := rest.takeWhile (fun c => c != '.')
  let padded := (decimalPart ++ List.replicate (d - decimalPart.length) '0').take d
  decCharsToNat integerPart * 10 ^ d + decCharsToNat padded

/-- Source `weiToEther(wei)`: parse as `BigInt`, render with 18 decimals. -/
def weiToEther (wei : String) : String :=
  ⟨toHumanChars 18 (decCharsToNat wei.data)⟩

/-- Source `etherToWei(ether)`. -/
def etherToWei (ether : String) : String :=
  ⟨natToDecChars (toBaseChars 18 ether.data)⟩

/-- Source `satoshiToBitcoin(satoshi)`: 8 decimals. -/
def satoshiToBitcoin (satoshi : String) : String :=
  ⟨toHumanChars 8 (decCharsToNat satoshi.data)⟩

/-- Source `bitcoinToSatoshi(bitcoin)`. -/
def bitcoinToSatoshi (bitcoin : String) : String :=
  ⟨natToDecChars (toBaseChars 8 bitcoin.data)⟩

/-! ## Asset identifier model (src/data/networks.ts, src/data/parser.ts) -/

inductive AssetType where
  | native
  | erc20
  | erc721
  | erc1155
  | bitcoin
  deriving DecidableEq, Repr

structure AssetInfo where
  assetId : String
  networkId : String
  contractAddress : Option String
  tokenId : Option String
  type : AssetType
  deriving DecidableEq, Repr

/-- The three `throw new Error(...)` failure modes of the parser. -/
inductive ParseErr where
  | invalidFormat (assetId : String)
  | unsupportedChainNamespace (ns : String)
  | unsupportedAssetNamespace (ns : String)
  deriving DecidableEq, Repr

/-- The `error.message` carried by each parser exception. -/
def ParseErr.message : ParseErr → String
  | .invalidFormat s => "Invalid assetId format: " ++ s
  | .unsupportedChainNamespace s => "Unsupported chain namespace: " ++ s
  | .unsupportedAssetNamespace s => "Unsupported asset namespace: " ++ s

/-- CAIP chain part: `assetId.split('/')[0]`. -/
def caipChainPart (s : String) : List Char :=
  (splitOnChar '/' s.data).headD []

/-- CAIP asset part: `assetId.split('/')[1]` (defined when `/` occurs). -/
def caipAssetPart (s : String) : List Char :=
  ((splitOnChar '/' s.data).drop 1).headD []

/-- `chainPart.split(':')[0]`. -/
def caipChainNamespace (s : String) : List Char :=
  (splitOnChar ':' (caipChainPart s)).headD []

/-- `chainPart.split(':')[1]`, which may be `undefined`. -/
def caipChainReference (s : String) : Option (List Char) :=
  ((splitOnChar ':' (caipChainPart s)).drop 1).head?

/-- `assetPart.split(':')[0]`. -/
def caipAssetNamespace (s : String) : List Char :=
  (splitOnChar ':' (caipAssetPart s)).headD []

/-- `assetPart.split(':').slice(1).join(':')`. -/
def caipAssetReference (s : String) : List Char :=
  joinChar ':' ((splitOnChar ':' (caipAssetPart s)).drop 1)

/-- The fixed `chainIdMap` of `parseCAIPAssetId`. -/
def chainIdMap (ref : List Char) : Option String :=
  if ref = "1".data then some "ethereum"
  else if ref = "137".data then some "polygon"
  else if ref = "42161".data then some "arbitrum"
  else if ref = "10".data then some "optimism"
  else if ref = "8453".data then some "base"
  else none

/-- Network resolution of `parseCAIPAssetId`: `none` means the chain
namespace is unsupported.  An absent chain reference is interpolated by
JavaScript as the string `undefined`, which the model reproduces. -/
def caipNetworkId (s : String) : Option String :=
  if caipChainNamespace s = "bip122".data then some "bitcoin"
  else if caipChainNamespace s = "eip155".data then
    let ref := (caipChainReference s).getD "undefined".data
    some (match chainIdMap ref with
      | some name => name
      | none => ⟨"eip155:".data ++ ref⟩)
  else none

/-- Source `parseCAIPAssetId`.  The `type = 'bitcoin'` assignment made in
the `bip122` branch of the source is always overwritten by the asset
namespace branch, so the final type is determined there alone. -/
def parseCAIPAssetId (s : String) : Except ParseErr AssetInfo :=
  match caipNetworkId s with
  | none => .error (.unsupportedChainNamespace ⟨caipChainNamespace s⟩)
  | some networkId =>
    let ns := caipAssetNamespace s
    let ref := caipAssetReference s
    if ns = "slip44".data then
      .ok ⟨s, networkId, none, none,
        if networkId = "bitcoin" then .bitcoin else .native⟩
    else if ns = "erc20".data then
      .ok ⟨s, networkId, some ⟨ref⟩, none, .erc20⟩
    else if ns = "erc721".data then
      match splitOnChar ':' ref with
      | [c, t] => .ok ⟨s, networkId, some ⟨c⟩, some ⟨t⟩, .erc721⟩
      | _ => .ok ⟨s, networkId, some ⟨ref⟩, none, .erc721⟩
    else if ns = "erc1155".data then
      match splitOnChar ':' ref with
      | [c, t] => .ok ⟨s, networkId, some ⟨c⟩, some ⟨t⟩, .erc1155⟩
      | _ => .ok ⟨s, networkId, some ⟨ref⟩, none, .erc1155⟩
    else .error (.unsupportedAssetNamespace ⟨ns⟩)

/-- Source `parseAssetId`: CAIP grammar when the string contains `/`, else
the legacy colon-delimited grammar. -/
def parseAssetId (assetId : String) : Except ParseErr AssetInfo :=
  if '/' ∈ assetId.data then parseCAIPAssetId assetId
  else if assetId = "bitcoin" then
    .ok ⟨assetId, "bitcoin", none, none, .bitcoin⟩
  else
    match splitOnChar ':' assetId.data with
    | [n] => .ok ⟨assetId, ⟨n⟩, none, none, .native⟩
    | [n, c] => .ok ⟨assetId, ⟨n⟩, some ⟨c⟩, none, .erc20⟩
    | [n, c, t] => .ok ⟨assetId, ⟨n⟩, some ⟨c⟩, some ⟨t⟩, .erc721⟩
    | _ => .error (.invalidFormat assetId)

instance {ε α : Type} [DecidableEq ε] [DecidableEq α] : DecidableEq (Except ε α) :=
  fun a b =>
    match a, b with
    | .ok x, .ok y =>
      if h : x = y then .isTrue (h ▸ rfl)
      else .isFalse (fun hc => h (by cases hc; rfl))
    | .ok _, .error _ => .isFalse (fun hc => Except.noConfusion hc)
    | .error _, .ok _ => .isFalse (fun hc => Except.noConfusion hc)
    | .error x, .error y =>
      if h : x = y then .isTrue (h ▸ rfl)
      else .isFalse (fun hc => h (by cases hc; rfl))

/-- JavaScript falsiness of an optional string: `undefined` or `""`. -/
def falsy : Option String → Bool
  | none => true
  | some s => s = ""

/-- Source `buildAssetId`. -/
def buildAssetId (networkId : String) (contractAddress tokenId : Option String) :
    String :=
  if networkId = "bitcoin" then "bitcoin"
  else if falsy contractAddress then networkId
  else if falsy tokenId then networkId ++ ":" ++ contractAddress.getD ""
  else networkId ++ ":" ++ contractAddress.getD "" ++ ":" ++ tokenId.getD ""

/-! ## Response envelope and provider oracles (src/data/types.ts,
src/service/blockchain.service.ts)

Each upstream provider method is modelled as a total oracle function
returning an envelope: the provider classes of the repository catch their
own errors and return failure envelopes, so a thrown upstream exception
surfaces to the service as a returned `success:false` envelope.  The
`details` field of `ApiError` (of type `any` in the source) is elided:
no claim mentions it. -/

structure ApiError where
  code : String
  message : String
  deriving DecidableEq, Repr

structure ApiResponse (α : Type) where
  success : Bool
  data : Option α
  error : Option ApiError
  timestamp : Nat
  deriving DecidableEq, Repr

/-- A success envelope as constructed throughout the service and providers. -/
def okResponse {α : Type} (d : α) : ApiResponse α :=
  ⟨true, some d, none, 0⟩

/-- A failure envelope as constructed throughout the service and providers. -/
def errResponse {α : Type} (code message : String) : ApiResponse α :=
  ⟨false, none, some ⟨code, message⟩, 0⟩

structure BalanceResponse where
  balance : String
  balanceFormatted : String
  assetId : String
  networkId : String
  timestamp : Nat
  deriving DecidableEq, Repr

structure TokenMetadataResponse where
  name : String
  symbol : String
  decimals : Nat
  totalSupply : Option String
  contractAddress : Option String
  assetId : String
  networkId : String
  type : String
  logo : Option String
  deriving DecidableEq, Repr

inductive GasType where
  | legacy
  | eip1559
  deriving DecidableEq, Repr

/-! ## Provider dispatcher (src/service/blockchain.service.ts)

Each `BlockchainService` method is a function of the provider oracles it
may consult.  The `try`/`catch` of each method catches exactly the
exceptions of the parse step (providers return envelopes instead of
throwing), so the catch branch appears as the `.error` case of the parse. -/

/-- Service `getBalance`: parse, then route on the parsed type. -/
def getBalanceSvc (btcBal : String → ApiResponse BalanceResponse)
    (evmBal : String → String → ApiResponse BalanceResponse)
    (address assetId : String) : ApiResponse BalanceResponse :=
  match parseAssetId assetId with
  | .error e => errResponse "BALANCE_SERVICE_ERROR" e.message
  | .ok info =>
    if info.type = .bitcoin then btcBal address else evmBal address assetId

/-- Service `getGas`: Bitcoin is rejected before any provider call. -/
def getGasSvc {γ : Type} (evmGas : String → GasType → ApiResponse γ)
    (networkId : String) (t : GasType) : ApiResponse γ :=
  if networkId = "bitcoin" then
    errResponse "UNSUPPORTED_NETWORK" "Gas price not applicable for Bitcoin"
  else evmGas networkId t

/-- Service `getPrice`: pass-through to the price aggregator. -/
def getPriceSvc {π : Type} (cgPrice : String → String → ApiResponse π)
    (assetId currency : String) : ApiResponse π :=
  cgPrice assetId currency

/-- Service `getPriceHistory`: pass-through to the price aggregator. -/
def getPriceHistorySvc {π : Type} (cgHist : String → Nat → String → ApiResponse π)
    (assetId : String) (days : Nat) (currency : String) : ApiResponse π :=
  cgHist assetId days currency

/-- Service `getHistory`: parse, then route on the parsed type. -/
def getHistorySvc {η : Type} (btcHist : String → Nat → Nat → ApiResponse η)
    (evmHist : String → String → Nat → Nat → ApiResponse η)
    (address assetId : String) (page limit : Nat) : ApiResponse η :=
  match parseAssetId assetId with
  | .error e => errResponse "HISTORY_SERVICE_ERROR" e.message
  | .ok info =>
    if info.type = .bitcoin then btcHist address page limit
    else evmHist address assetId page limit

/-- Service `getNftOwners`. -/
def getNftOwnersSvc {ω : Type}
    (evmOwners : String → String → Option String → ApiResponse ω)
    (contractAddress networkId : String) (tokenId : Option String) :
    ApiResponse ω :=
  if networkId = "bitcoin" then
    errResponse "UNSUPPORTED_NETWORK" "NFTs not supported on Bitcoin"
  else evmOwners contractAddress networkId tokenId

/-- Service `getNftsForOwner`. -/
def getNftsForOwnerSvc {ω : Type}
    (evmOwned : String → String → Option String → ApiResponse ω)
    (owner networkId : String) (contractAddress : Option String) :
    ApiResponse ω :=
  if networkId = "bitcoin" then
    errResponse "UNSUPPORTED_NETWORK" "NFTs not supported on Bitcoin"
  else evmOwned owner networkId contractAddress

/-- The fixed Bitcoin native-currency metadata synthesized by the service. -/
def bitcoinMetadata : TokenMetadataResponse :=
  ⟨"Bitcoin", "BTC", 8, none, none, "bitcoin", "bitcoin", "native", none⟩

/-- Service `getTokenMetadata`. -/
def getTokenMetadataSvc (evmMeta : String → ApiResponse TokenMetadataResponse)
    (assetId : String) : ApiResponse TokenMetadataResponse :=
  match parseAssetId assetId with
  | .error e => errResponse "TOKEN_METADATA_SERVICE_ERROR" e.message
  | .ok info =>
    if info.type = .bitcoin then okResponse bitcoinMetadata
    else evmMeta assetId

/-- Service `getNftMetadata`. -/
def getNftMetadataSvc {μ : Type} (evmNftMeta : String → ApiResponse μ)
    (assetId : String) : ApiResponse μ :=
  match parseAssetId assetId with
  | .error e => errResponse "NFT_METADATA_SERVICE_ERROR" e.message
  | .ok info =>
    if info.type = .bitcoin then
      errResponse "UNSUPPORTED_ASSET_TYPE" "NFTs not supported on Bitcoin"
    else evmNftMeta assetId

/-- Service `getMultipleBalances`: issues one `getBalance` per asset id and
keeps only the sub-results with `success && data`, always reporting overall
success.  The `Record` accumulator is modelled as an association list in
asset-id order. -/
def getMultipleBalancesSvc (btcBal : String → ApiResponse BalanceResponse)
    (evmBal : String → String → ApiResponse BalanceResponse)
    (address : String) (assetIds : List String) :
    ApiResponse (List (String × BalanceResponse)) :=
  okResponse (assetIds.filterMap (fun aid =>
    let r := getBalanceSvc btcBal evmBal address aid
    match r.success, r.data with
    | true, some d => some (aid, d)
    | _, _ => none))

/-- Service `getMultiplePrices`: pass-through to the price aggregator. -/
def getMultiplePricesSvc {π : Type}
    (cgMulti : List String → String → ApiResponse π)
    (assetIds : List String) (currency : String) : ApiResponse π :=
  cgMulti assetIds currency

/-- One row of the portfolio summary.  The floating-point valuation fields
(`value`, `totalValue`) of the source are not modelled: claims concern only
envelope success and row selection, and the price payload stays abstract. -/
structure PortfolioEntry (π : Type) where
  assetId : String
  balance : String
  price : π
  deriving DecidableEq, Repr

structure PortfolioData (π : Type) where
  currency : String
  portfolio : List (PortfolioEntry π)
  deriving DecidableEq, Repr

/-- Service `getPortfolioSummary`: joins `getMultipleBalances` and
`getMultiplePrices`, throws (caught below as the failure envelope) when
either joined envelope is unsuccessful, and otherwise keeps the rows whose
asset id has both a balance and a price. -/
def getPortfolioSummarySvc {π : Type}
    (btcBal : String → ApiResponse BalanceResponse)
    (evmBal : String → String → ApiResponse BalanceResponse)
    (cgMulti : List String → String → ApiResponse (List (String × π)))
    (address : String) (assetIds : List String) (currency : String) :
    ApiResponse (PortfolioData π) :=
  let balancesResult := getMultipleBalancesSvc btcBal evmBal address assetIds
  let pricesResult := getMultiplePricesSvc cgMulti assetIds currency
  if !balancesResult.success || !pricesResult.success then
    errResponse "PORTFOLIO_SUMMARY_SERVICE_ERROR" "Failed to fetch portfolio data"
  else
    let balances := balancesResult.data.getD []
    let prices := pricesResult.data.getD []
    okResponse ⟨currency, assetIds.filterMap (fun aid =>
      match balances.lookup aid, prices.lookup aid with
      | some bal, some pr => some ⟨aid, bal.balanceFormatted, pr⟩
      | _, _ => none)⟩

/-! ## Bitcoin transaction classification (src/provider/bitcoin.ts) -/

inductive TxType where
  | send
  | receive
  deriving DecidableEq, Repr

structure TxStatus where
  confirmed : Bool
  block_height : Nat
  block_time : Nat
  deriving DecidableEq, Repr

/-- A transaction input; `prevout_address` is
`input.prevout?.scriptpubkey_address`, absent when the prevout or its
address is missing. -/
structure BtcVin where
  prevout_address : Option String
  deriving DecidableEq, Repr

structure BtcVout where
  scriptpubkey_address : Option String
  value : Nat
  deriving DecidableEq, Repr

structure BtcTx where
  txid : String
  vin : List BtcVin
  vout : List BtcVout
  fee : Option Nat
  status : TxStatus
  deriving DecidableEq, Repr

/-- The normalized transaction entry of `types.ts` (`from`/`to` renamed to
`fromAddr`/`toAddr`; `status` is the string `success` or `pending`). -/
structure Transaction where
  hash : String
  fromAddr : String
  toAddr : String
  value : String
  valueFormatted : String
  timestamp : Nat
  blockNumber : Nat
  gasUsed : String
  gasPrice : String
  status : String
  type : TxType
  deriving DecidableEq, Repr

/-- The per-transaction mapping of `BitcoinProvider.getHistory`: find the
first input spent by `address` and the first output paying `address`,
classify, and compute the reported value. -/
def btcClassify (address : String) (tx : BtcTx) : Transaction :=
  let relevantInput := tx.vin.find? (fun i => i.prevout_address == some address)
  let relevantOutput := tx.vout.find? (fun o => o.scriptpubkey_address == some address)
  let isSend := relevantInput.isSome && !relevantOutput.isSome
  let isReceive := !relevantInput.isSome && relevantOutput.isSome
  let value : Nat :=
    if isSend then tx.vout.foldl (fun sum o => sum + o.value) 0
    else if isReceive then (relevantOutput.map (fun o => o.value)).getD 0
    else 0
  { hash := tx.txid
    fromAddr :=
      if isSend then address
      else ((tx.vin.head?.bind (fun i => i.prevout_address)).getD "")
    toAddr :=
      if isReceive then address
      else ((tx.vout.head?.bind (fun o => o.scriptpubkey_address)).getD "")
    value := ⟨natToDecChars value⟩
    valueFormatted := satoshiToBitcoin ⟨natToDecChars value⟩
    timestamp := tx.status.block_time * 1000
    blockNumber := tx.status.block_height
    gasUsed := match tx.fee with
      | some f => ⟨natToDecChars f⟩
      | none => "0"
    gasPrice := "0"
    status := if tx.status.confirmed then "success" else "pending"
    type := if isReceive then .receive else .send }

/-! ## Lemmas: decimal digit strings -/

theorem charVal_digitChar {m : Nat} (h : m < 10) : charVal (Nat.digitChar m) = m := by
  interval_cases m <;> decide

theorem digitChar_ne_dot {m : Nat} (h : m < 10) : Nat.digitChar m ≠ '.' := by
  interval_cases m <;> decide

theorem decCharsToNat_append_digit (l : List Char) (c : Char) :
    decCharsToNat (l ++ [c]) = 10 * decCharsToNat l + charVal c := by
  simp [decCharsToNat, List.foldl_append]

theorem decCharsToNat_replicate_zero_append (k : Nat) (l : List Char) :
    decCharsToNat (List.replicate k '0' ++ l) = decCharsToNat l := by
  induction k with
  | zero => rfl
  | succ k ih =>
    have h0 : charVal '0' = 0 := by decide
    simpa [List.replicate_succ, decCharsToNat, h0] using ih

theorem decCharsToNat_digitsAux (fuel : Nat) :
    ∀ n, n ≤ fuel → decCharsToNat (digitsAux fuel n) = n := by
  induction fuel with
  | zero =>
    intro n h
    have hn : n = 0 := by omega
    subst hn; rfl
  | succ fuel ih =>
    intro n h
    by_cases h0 : n = 0
    · subst h0; rfl
    · have hd : digitsAux (fuel + 1) n
          = digitsAux fuel (n / 10) ++ [Nat.digitChar (n % 10)] := by
        simp [digitsAux, h0]
      have hlt : n / 10 < n := Nat.div_lt_self (by omega) (by norm_num)
      rw [hd, decCharsToNat_append_digit, ih (n / 10) (by omega),
        charVal_digitChar (Nat.mod_lt n (by omega))]
      omega

theorem decCharsToNat_natToDecChars (n : Nat) :
    decCharsToNat (natToDecChars n) = n := by
  by_cases h : n = 0
  · subst h; rfl
  · simpa [natToDecChars, h] using decCharsToNat_digitsAux n n (Nat.le_refl n)

theorem mem_digitsAux_ne_dot (fuel : Nat) :
    ∀ n c, c ∈ digitsAux fuel n → c ≠ '.' := by
  induction fuel with
  | zero => intro n c h; simp [digitsAux] at h
  | succ fuel ih =>
    intro n c h
    by_cases h0 : n = 0
    · simp [digitsAux, h0] at h
    · simp only [digitsAux, h0, if_false, List.mem_append, List.mem_singleton] at h
      rcases h with h | h
      · exact ih _ _ h
      · subst h; exact digitChar_ne_dot (Nat.mod_lt n (by omega))

theorem mem_natToDecChars_ne_dot (n : Nat) :
    ∀ c ∈ natToDecChars n, c ≠ '.' := by
  intro c h
  by_cases h0 : n = 0
  · subst h0
    have hc : c = '0' := by simpa [natToDecChars] using h
    subst hc; decide
  · simp only [natToDecChars, h0, if_false] at h
    exact mem_digitsAux_ne_dot n n c h

theorem length_digitsAux (fuel : Nat) :
    ∀ n k, n < 10 ^ k → (digitsAux fuel n).length ≤ k := by
  induction fuel with
  | zero => intro n k _; simp [digitsAux]
  | succ fuel ih =>
    intro n k hk
    by_cases h0 : n = 0
    · simp [digitsAux, h0]
    · cases k with
      | zero => simp at hk; omega
      | succ k =>
        have hd : digitsAux (fuel + 1) n
            = digitsAux fuel (n / 10) ++ [Nat.digitChar (n % 10)] := by
          simp [digitsAux, h0]
        have hq : n / 10 < 10 ^ k := by
          rw [Nat.div_lt_iff_lt_mul (by norm_num : 0 < 10)]
          calc n < 10 ^ (k + 1) := hk
            _ = 10 ^ k * 10 := by ring
        have := ih (n / 10) k hq
        rw [hd]
        simp only [List.length_append, List.length_singleton]
        omega

theorem length_natToDecChars_le {n k : Nat} (h1 : n < 10 ^ k) (h2 : 1 ≤ k) :
    (natToDecChars n).length ≤ k := by
  by_cases h0 : n = 0
  · subst h0; simpa [natToDecChars] using h2
  · simp only [natToDecChars, h0, if_false]
    exact length_digitsAux n n k h1

/-! ## Lemmas: takeWhile, dropWhile, trailing zeros -/

theorem takeWhile_of_all {α : Type} (p : α → Bool) :
    ∀ l : List α, (∀ c ∈ l, p c = true) → l.takeWhile p = l := by
  intro l h
  induction l with
  | nil => rfl
  | cons a l ih =>
    simp only [List.takeWhile_cons, h a (by simp), if_true, List.cons.injEq, true_and]
    exact ih (fun c hc => h c (by simp [hc]))

theorem dropWhile_of_all {α : Type} (p : α → Bool) :
    ∀ l : List α, (∀ c ∈ l, p c = true) → l.dropWhile p = [] := by
  intro l h
  induction l with
  | nil => rfl
  | cons a l ih =>
    simp only [List.dropWhile_cons, h a (by simp), if_true]
    exact ih (fun c hc => h c (by simp [hc]))

theorem takeWhile_append_stop {α : Type} (p : α → Bool) (x : α) (hx : p x = false)
    (S : List α) :
    ∀ A : List α, (∀ c ∈ A, p c = true) → (A ++ x :: S).takeWhile p = A := by
  intro A hA
  induction A with
  | nil => simp [List.takeWhile_cons, hx]
  | cons a A ih =>
    simp only [List.cons_append, List.takeWhile_cons, hA a (by simp), if_true,
      List.cons.injEq, true_and]
    exact ih (fun c hc => hA c (by simp [hc]))

theorem dropWhile_append_stop {α : Type} (p : α → Bool) (x : α) (hx : p x = false)
    (S : List α) :
    ∀ A : List α, (∀ c ∈ A, p c = true) → (A ++ x :: S).dropWhile p = x :: S := by
  intro A hA
  induction A with
  | nil => simp [List.dropWhile_cons, hx]
  | cons a A ih =>
    simp only [List.cons_append, List.dropWhile_cons, hA a (by simp), if_true]
    exact ih (fun c hc => hA c (by simp [hc]))

theorem mem_of_mem_dropWhile {α : Type} (p : α → Bool) :
    ∀ (l : List α) (a : α), a ∈ l.dropWhile p → a ∈ l := by
  intro l a h
  induction l with
  | nil => simp [List.dropWhile] at h
  | cons x l ih =>
    by_cases hx : p x
    · simp only [List.dropWhile_cons, hx, if_true] at h
      exact List.mem_cons_of_mem x (ih h)
    · simp only [List.dropWhile_cons, hx, if_false] at h
      exact h

theorem head?_dropWhile {α : Type} (p : α → Bool) :
    ∀ (l : List α) (a : α), (l.dropWhile p).head? = some a → p a = false := by
  intro l a h
  induction l with
  | nil => simp [List.dropWhile] at h
  | cons x l ih =>
    by_cases hx : p x
    · simp only [List.dropWhile_cons, hx, if_true] at h
      exact ih h
    · have hx' : p x = false := by simpa using hx
      simp only [List.dropWhile_cons, hx', Bool.false_eq_true, if_false,
        List.head?_cons, Option.some.injEq] at h
      subst h
      exact hx'

theorem stripTrailingZeros_decompose (l : List Char) :
    ∃ k, l = stripTrailingZeros l ++ List.replicate k '0' := by
  refine ⟨(l.reverse.takeWhile (fun c => c == '0')).length, ?_⟩
  conv_lhs => rw [← l.reverse_reverse,
    ← List.takeWhile_append_dropWhile (p := fun c => c == '0') (l := l.reverse)]
  rw [List.reverse_append]
  unfold stripTrailingZeros
  congr 1
  have hall : ∀ c ∈ l.reverse.takeWhile (fun c => c == '0'), c = '0' := by
    intro c hc
    have hp := List.mem_takeWhile_imp (p := fun x => x == '0') hc
    simp at hp
    exact hp
  rw [List.eq_replicate_of_mem hall]
  simp [List.reverse_replicate]

theorem stripTrailingZeros_getLast (l : List Char) :
    (stripTrailingZeros l).getLast? ≠ some '0' := by
  intro h
  unfold stripTrailingZeros at h
  rw [List.getLast?_reverse] at h
  have := head?_dropWhile (fun c => c == '0') l.reverse '0' h
  simp at this

theorem mem_stripTrailingZeros (l : List Char) (c : Char)
    (h : c ∈ stripTrailingZeros l) : c ∈ l := by
  unfold stripTrailingZeros at h
  rw [List.mem_reverse] at h
  have := mem_of_mem_dropWhile (fun c => c == '0') l.reverse c h
  exact List.mem_reverse.mp this

/-! ## Lemmas: the human-unit rendering and its inverse -/

theorem decCharsToNat_replicate_zero (k : Nat) :
    decCharsToNat (List.replicate k '0') = 0 := by
  have := decCharsToNat_replicate_zero_append k []
  simpa using this

theorem decCharsToNat_padStartZeros (d : Nat) (l : List Char) :
    decCharsToNat (padStartZeros d l) = decCharsToNat l := by
  unfold padStartZeros
  exact decCharsToNat_replicate_zero_append _ _

theorem length_padStartZeros_of_le {d : Nat} {l : List Char} (h : l.length ≤ d) :
    (padStartZeros d l).length = d := by
  simp [padStartZeros]
  omega

theorem mem_padStartZeros_ne_dot {d n : Nat} {c : Char}
    (h : c ∈ padStartZeros d (natToDecChars n)) : c ≠ '.' := by
  unfold padStartZeros at h
  rw [List.mem_append] at h
  rcases h with h | h
  · have hc : c = '0' := List.eq_of_mem_replicate h
    subst hc; decide
  · exact mem_natToDecChars_ne_dot n c h

theorem one_le_of_mod_pow_ne {d b : Nat} (h : b % 10 ^ d ≠ 0) : 1 ≤ d := by
  by_contra hd
  have hd0 : d = 0 := by omega
  subst hd0
  simp [Nat.mod_one] at h

theorem length_padStart_mod {d b : Nat} (h : b % 10 ^ d ≠ 0) :
    (padStartZeros d (natToDecChars (b % 10 ^ d))).length = d := by
  apply length_padStartZeros_of_le
  exact length_natToDecChars_le (Nat.mod_lt b (pow_pos (by norm_num) d))
    (one_le_of_mod_pow_ne h)

/-- Structure of the rendering when the remainder is non-zero: an integer
part, a dot, and a non-empty fractional part with no trailing zero, which
padded back to `d` digits is exactly the padded remainder. -/
theorem toHumanChars_frac {d b : Nat} (h : b % 10 ^ d ≠ 0) :
    ∃ S : List Char, S ≠ [] ∧ S.getLast? ≠ some '0' ∧ (∀ c ∈ S, c ≠ '.') ∧
      S ++ List.replicate (d - S.length) '0'
        = padStartZeros d (natToDecChars (b % 10 ^ d)) ∧
      toHumanChars d b = natToDecChars (b / 10 ^ d) ++ '.' :: S := by
  have hlenP : (padStartZeros d (natToDecChars (b % 10 ^ d))).length = d :=
    length_padStart_mod h
  have hPval : decCharsToNat (padStartZeros d (natToDecChars (b % 10 ^ d)))
      = b % 10 ^ d := by
    rw [decCharsToNat_padStartZeros, decCharsToNat_natToDecChars]
  obtain ⟨k, hk⟩ :=
    stripTrailingZeros_decompose (padStartZeros d (natToDecChars (b % 10 ^ d)))
  have hlen : (stripTrailingZeros
      (padStartZeros d (natToDecChars (b % 10 ^ d)))).length + k = d := by
    have h' := congrArg List.length hk
    simp only [List.length_append, List.length_replicate] at h'
    omega
  have hSne : stripTrailingZeros (padStartZeros d (natToDecChars (b % 10 ^ d)))
      ≠ [] := by
    intro hS
    rw [hS, List.nil_append] at hk
    rw [hk, decCharsToNat_replicate_zero] at hPval
    exact h hPval.symm
  refine ⟨stripTrailingZeros (padStartZeros d (natToDecChars (b % 10 ^ d))),
    hSne, stripTrailingZeros_getLast _, ?_, ?_, ?_⟩
  · intro c hc
    exact mem_padStartZeros_ne_dot (mem_stripTrailingZeros _ c hc)
  · rw [show d - (stripTrailingZeros
      (padStartZeros d (natToDecChars (b % 10 ^ d)))).length = k by omega]
    exact hk.symm
  · simp only [toHumanChars]
    rw [if_neg h, if_neg hSne]

/-- Round trip: rendering a base amount with `d` decimals and parsing it
back is the identity.  This is the common core of
`etherToWei ∘ weiToEther` and `bitcoinToSatoshi ∘ satoshiToBitcoin`. -/
theorem toBaseChars_toHumanChars (d b : Nat) :
    toBaseChars d (toHumanChars d b) = b := by
  have hdm : b / 10 ^ d * 10 ^ d + b % 10 ^ d = b := Nat.div_add_mod' b (10 ^ d)
  by_cases hr : b % 10 ^ d = 0
  · have hH : toHumanChars d b = natToDecChars (b / 10 ^ d) := by
      simp [toHumanChars, hr]
    rw [hH]
    simp only [toBaseChars]
    have hall : ∀ c ∈ natToDecChars (b / 10 ^ d), (fun c => c != '.') c = true := by
      intro c hc
      simpa using mem_natToDecChars_ne_dot _ c hc
    rw [takeWhile_of_all _ _ hall, dropWhile_of_all _ _ hall]
    simp only [List.drop_nil, List.takeWhile_nil, List.nil_append,
      List.length_nil, Nat.sub_zero]
    rw [List.take_of_length_le (by simp), decCharsToNat_replicate_zero,
      decCharsToNat_natToDecChars]
    rw [hr] at hdm
    exact hdm
  · obtain ⟨S, hSne, hSlast, hSdot, hSrep, hH⟩ := toHumanChars_frac hr
    rw [hH]
    simp only [toBaseChars]
    have hallA : ∀ c ∈ natToDecChars (b / 10 ^ d), (fun c => c != '.') c = true := by
      intro c hc
      simpa using mem_natToDecChars_ne_dot _ c hc
    have hdot : (fun c => c != '.') '.' = false := by decide
    rw [takeWhile_append_stop (p := fun c => c != '.') '.' hdot S _ hallA,
      dropWhile_append_stop (p := fun c => c != '.') '.' hdot S _ hallA]
    simp only [List.drop_succ_cons, List.drop_zero]
    have hallS : ∀ c ∈ S, (fun c => c != '.') c = true := by
      intro c hc
      simpa using hSdot c hc
    rw [takeWhile_of_all (p := fun c => c != '.') S hallS, hSrep,
      List.take_of_length_le (le_of_eq (length_padStart_mod hr)),
      decCharsToNat_padStartZeros, decCharsToNat_natToDecChars,
      decCharsToNat_natToDecChars]
    exact hdm

/-! ## Lemmas: split and join -/

theorem splitOnChar_ne_nil (sep : Char) : ∀ l, splitOnChar sep l ≠ [] := by
  intro l
  cases l with
  | nil => simp [splitOnChar]
  | cons c rest =>
    by_cases hc : c = sep
    · simp [splitOnChar, hc]
    · simp only [splitOnChar, hc, if_false]
      cases splitOnChar sep rest <;> simp

theorem splitOnChar_cons_exists (sep : Char) (l : List Char) :
    ∃ x xs, splitOnChar sep l = x :: xs := by
  cases h : splitOnChar sep l with
  | nil => exact absurd h (splitOnChar_ne_nil sep l)
  | cons x xs => exact ⟨x, xs, rfl⟩

theorem joinChar_splitOnChar (sep : Char) : ∀ l, joinChar sep (splitOnChar sep l) = l := by
  intro l
  induction l with
  | nil => rfl
  | cons c rest ih =>
    obtain ⟨x, xs, hxs⟩ := splitOnChar_cons_exists sep rest
    by_cases hc : c = sep
    · simp only [splitOnChar, if_pos hc]
      rw [hxs]
      show [] ++ sep :: joinChar sep (x :: xs) = c :: rest
      rw [List.nil_append, ← hxs, ih, hc]
    · simp only [splitOnChar, hc, if_false]
      rw [hxs]
      cases xs with
      | nil =>
        rw [hxs] at ih
        show c :: x = c :: rest
        rw [show joinChar sep [x] = x from rfl] at ih
        rw [ih]
      | cons y ys =>
        rw [hxs] at ih
        show (c :: x) ++ sep :: joinChar sep (y :: ys) = c :: rest
        rw [show joinChar sep (x :: y :: ys) = x ++ sep :: joinChar sep (y :: ys)
          from rfl] at ih
        rw [List.cons_append, ih]

/-- Extensionality for the one-field string structure. -/
theorem stringDataExt {a b : String} (h : a.data = b.data) : a = b :=
  congrArg String.mk h

/-! ## Claim C4 -/

/-- C4: for every non-negative arbitrary-precision integer b, converting to
human units and back to base units is the identity, with 18 decimals
(`etherToWei` after `weiToEther`) and 8 decimals (`bitcoinToSatoshi` after
`satoshiToBitcoin`). -/
theorem c4_unit_conversion_roundtrip (b : Nat) :
    etherToWei (weiToEther ⟨natToDecChars b⟩) = ⟨natToDecChars b⟩ ∧
    bitcoinToSatoshi (satoshiToBitcoin ⟨natToDecChars b⟩) = ⟨natToDecChars b⟩ := by
  constructor
  · show (⟨natToDecChars (toBaseChars 18 (toHumanChars 18
      (decCharsToNat (natToDecChars b))))⟩ : String) = ⟨natToDecChars b⟩
    rw [decCharsToNat_natToDecChars, toBaseChars_toHumanChars]
  · show (⟨natToDecChars (toBaseChars 8 (toHumanChars 8
      (decCharsToNat (natToDecChars b))))⟩ : String) = ⟨natToDecChars b⟩
    rw [decCharsToNat_natToDecChars, toBaseChars_toHumanChars]

/-! ## Claim C9 -/

/-- C9: the human-unit rendering omits the decimal point exactly when the
remainder is zero and never ends in a trailing zero after the point, and
the concrete format examples of the spec hold. -/
theorem c9_formatting (b d : Nat) :
    weiToEther "0" = "0" ∧
    weiToEther "1000000000000000000" = "1" ∧
    weiToEther "1500000000000000000" = "1.5" ∧
    satoshiToBitcoin "100000000" = "1" ∧
    (b % 10 ^ d = 0 →
      toHumanChars d b = natToDecChars (b / 10 ^ d) ∧ '.' ∉ toHumanChars d b) ∧
    (b % 10 ^ d ≠ 0 →
      ∃ S, S ≠ [] ∧ S.getLast? ≠ some '0' ∧
        toHumanChars d b = natToDecChars (b / 10 ^ d) ++ '.' :: S) := by
  refine ⟨by decide, by decide, by decide, by decide, ?_, ?_⟩
  · intro h
    have hH : toHumanChars d b = natToDecChars (b / 10 ^ d) := by
      simp [toHumanChars, h]
    refine ⟨hH, ?_⟩
    rw [hH]
    intro hc
    exact mem_natToDecChars_ne_dot _ _ hc rfl
  · intro h
    obtain ⟨S, h1, h2, _, _, h5⟩ := toHumanChars_frac h
    exact ⟨S, h1, h2, h5⟩

/-- Witness for C9: both implications discharged at concrete inputs. -/
theorem c9_formatting_witness :
    (toHumanChars 18 (2 * 10 ^ 18) = natToDecChars (2 * 10 ^ 18 / 10 ^ 18) ∧
      '.' ∉ toHumanChars 18 (2 * 10 ^ 18)) ∧
    (∃ S, S ≠ [] ∧ S.getLast? ≠ some '0' ∧
      toHumanChars 8 150000000 = natToDecChars (150000000 / 10 ^ 8) ++ '.' :: S) := by
  constructor
  · exact (c9_formatting (2 * 10 ^ 18) 18).2.2.2.2.1 (by norm_num)
  · exact (c9_formatting 150000000 8).2.2.2.2.2 (by norm_num)

/-! ## Claim C2 -/

theorem parseCAIP_invariant (s : String) (info : AssetInfo)
    (h : parseCAIPAssetId s = .ok info) :
    ((info.type = .native ∨ info.type = .bitcoin) →
      info.contractAddress = none ∧ info.tokenId = none) ∧
    (info.type = .erc20 → (info.contractAddress).isSome ∧ info.tokenId = none) ∧
    ((info.type = .erc721 ∨ info.type = .erc1155) →
      (info.contractAddress).isSome) := by
  unfold parseCAIPAssetId at h
  cases hnet : caipNetworkId s with
  | none =>
    rw [hnet] at h
    exact Except.noConfusion h
  | some nid =>
    rw [hnet] at h
    simp only [] at h
    by_cases h44 : caipAssetNamespace s = "slip44".data
    · rw [if_pos h44] at h
      injection h with h2
      subst h2
      refine ⟨fun _ => ⟨rfl, rfl⟩, fun hty => ?_, fun hty => ?_⟩
      · split at hty <;> exact AssetType.noConfusion hty
      · rcases hty with hty | hty <;>
          (split at hty <;> exact AssetType.noConfusion hty)
    · rw [if_neg h44] at h
      by_cases h20 : caipAssetNamespace s = "erc20".data
      · rw [if_pos h20] at h
        injection h with h2
        subst h2
        refine ⟨fun hty => ?_, fun _ => ⟨rfl, rfl⟩, fun hty => ?_⟩
        · rcases hty with hty | hty <;> exact AssetType.noConfusion hty
        · rcases hty with hty | hty <;> exact AssetType.noConfusion hty
      · rw [if_neg h20] at h
        by_cases h721 : caipAssetNamespace s = "erc721".data
        · rw [if_pos h721] at h
          split at h <;>
          · injection h with h2
            subst h2
            refine ⟨fun hty => ?_, fun hty => ?_, fun _ => rfl⟩
            · rcases hty with hty | hty <;> exact AssetType.noConfusion hty
            · exact AssetType.noConfusion hty
        · rw [if_neg h721] at h
          by_cases h1155 : caipAssetNamespace s = "erc1155".data
          · rw [if_pos h1155] at h
            split at h <;>
            · injection h with h2
              subst h2
              refine ⟨fun hty => ?_, fun hty => ?_, fun _ => rfl⟩
              · rcases hty with hty | hty <;> exact AssetType.noConfusion hty
              · exact AssetType.noConfusion hty
          · rw [if_neg h1155] at h
            exact Except.noConfusion h

/-- C2: for every input on which `parseAssetId` succeeds, a native or
bitcoin asset carries no contract address and no token id, an erc20 asset
carries a contract address and no token id, and an erc721 or erc1155 asset
carries a contract address. -/
theorem c2_parse_invariant (s : String) (info : AssetInfo)
    (h : parseAssetId s = .ok info) :
    ((info.type = .native ∨ info.type = .bitcoin) →
      info.contractAddress = none ∧ info.tokenId = none) ∧
    (info.type = .erc20 → (info.contractAddress).isSome ∧ info.tokenId = none) ∧
    ((info.type = .erc721 ∨ info.type = .erc1155) →
      (info.contractAddress).isSome) := by
  rw [parseAssetId] at h
  split at h
  · exact parseCAIP_invariant s info h
  · split at h
    · injection h with h2
      subst h2
      refine ⟨fun _ => ⟨rfl, rfl⟩, fun hty => AssetType.noConfusion hty, fun hty => ?_⟩
      rcases hty with hty | hty <;> exact AssetType.noConfusion hty
    · split at h
      · injection h with h2
        subst h2
        refine ⟨fun _ => ⟨rfl, rfl⟩, fun hty => AssetType.noConfusion hty, fun hty => ?_⟩
        rcases hty with hty | hty <;> exact AssetType.noConfusion hty
      · injection h with h2
        subst h2
        refine ⟨fun hty => ?_, fun _ => ⟨rfl, rfl⟩, fun hty => ?_⟩
        · rcases hty with hty | hty <;> exact AssetType.noConfusion hty
        · rcases hty with hty | hty <;> exact AssetType.noConfusion hty
      · injection h with h2
        subst h2
        refine ⟨fun hty => ?_, fun hty => AssetType.noConfusion hty, fun _ => rfl⟩
        rcases hty with hty | hty <;> exact AssetType.noConfusion hty
      · exact Except.noConfusion h

/-- Witness for C2 at a concrete erc20 legacy identifier. -/
theorem c2_parse_invariant_witness :
    (some "0xabc" : Option String).isSome = true ∧ (none : Option String) = none :=
  (c2_parse_invariant "ethereum:0xabc"
    ⟨"ethereum:0xabc", "ethereum", some "0xabc", none, .erc20⟩ (by decide)).2.1 rfl

/-! ## Claim C10 -/

/-- C10: on inputs without a slash, `parseAssetId` fails (with the
InvalidFormat error) exactly when the input splits into four or more
colon-separated segments; in particular the empty string parses as a
native asset on the empty-string network. -/
theorem c10_legacy_failure_iff (s : String) (h : '/' ∉ s.data) :
    (parseAssetId s = .error (.invalidFormat s) ↔
      4 ≤ (splitOnChar ':' s.data).length) ∧
    parseAssetId "" = .ok ⟨"", "", none, none, .native⟩ := by
  refine ⟨?_, by decide⟩
  rw [parseAssetId, if_neg h]
  by_cases hb : s = "bitcoin"
  · rw [if_pos hb]
    subst hb
    constructor
    · intro hcontra
      exact Except.noConfusion hcontra
    · intro hlen
      exact absurd hlen (by decide)
  · rw [if_neg hb]
    rcases hsp : splitOnChar ':' s.data with _ | ⟨a, _ | ⟨b, _ | ⟨c, _ | ⟨e, rest⟩⟩⟩⟩
    · exact absurd hsp (splitOnChar_ne_nil ':' s.data)
    · simp [hsp]
    · simp [hsp]
    · simp [hsp]
    · simp only [hsp, List.length_cons]
      constructor
      · intro _
        omega
      · intro _
        trivial

/-- Witness for C10 at a four-segment input. -/
theorem c10_legacy_failure_iff_witness :
    (parseAssetId "a:b:c:d" = .error (.invalidFormat "a:b:c:d") ↔
      4 ≤ (splitOnChar ':' "a:b:c:d".data).length) ∧
    parseAssetId "" = .ok ⟨"", "", none, none, .native⟩ :=
  c10_legacy_failure_iff "a:b:c:d" (by decide)

/-! ## Claim C1 -/

/-- C1 as stated is false: a bip122 CAIP identifier with asset namespace
erc20 parses successfully but with type erc20, not bitcoin, so the type is
not independent of the asset namespace. -/
theorem c1_counterexample :
    parseAssetId "bip122:000000000019d6689c085ae165831e93/erc20:0xabc"
      = .ok ⟨"bip122:000000000019d6689c085ae165831e93/erc20:0xabc",
          "bitcoin", some "0xabc", none, .erc20⟩ ∧
    caipChainNamespace "bip122:000000000019d6689c085ae165831e93/erc20:0xabc"
      = "bip122".data ∧
    AssetType.erc20 ≠ AssetType.bitcoin := by
  refine ⟨by decide, by decide, by decide⟩

/-- C1 amended: for a CAIP identifier whose chain namespace is bip122, a
successful parse always yields networkId bitcoin, and the type is bitcoin
exactly when the asset namespace is slip44 (erc20, erc721 and erc1155
namespaces impose their own type; all other namespaces fail). -/
theorem c1_bip122_networkId (s : String) (info : AssetInfo)
    (hs : '/' ∈ s.data) (hns : caipChainNamespace s = "bip122".data)
    (h : parseAssetId s = .ok info) :
    info.networkId = "bitcoin" ∧
    (info.type = .bitcoin ↔ caipAssetNamespace s = "slip44".data) := by
  have hNet : caipNetworkId s = some "bitcoin" := by
    rw [caipNetworkId, if_pos hns]
  rw [parseAssetId, if_pos hs] at h
  simp only [parseCAIPAssetId, hNet] at h
  by_cases h44 : caipAssetNamespace s = "slip44".data
  · rw [if_pos h44] at h
    injection h with h2
    subst h2
    exact ⟨rfl, by simp [h44]⟩
  · rw [if_neg h44] at h
    by_cases h20 : caipAssetNamespace s = "erc20".data
    · rw [if_pos h20] at h
      injection h with h2
      subst h2
      exact ⟨rfl, by simp [h44]⟩
    · rw [if_neg h20] at h
      by_cases h721 : caipAssetNamespace s = "erc721".data
      · rw [if_pos h721] at h
        split at h <;>
        · injection h with h2
          subst h2
          exact ⟨rfl, by simp [h44]⟩
      · rw [if_neg h721] at h
        by_cases h1155 : caipAssetNamespace s = "erc1155".data
        · rw [if_pos h1155] at h
          split at h <;>
          · injection h with h2
            subst h2
            exact ⟨rfl, by simp [h44]⟩
        · rw [if_neg h1155] at h
          exact Except.noConfusion h

/-- Witness for C1 amended at a concrete bip122 slip44 identifier. -/
theorem c1_bip122_networkId_witness :
    ("bitcoin" : String) = "bitcoin" ∧
    (AssetType.bitcoin = AssetType.bitcoin ↔
      caipAssetNamespace "bip122:000/slip44:0" = "slip44".data) :=
  c1_bip122_networkId "bip122:000/slip44:0"
    ⟨"bip122:000/slip44:0", "bitcoin", none, none, .bitcoin⟩
    (by decide) (by decide) (by decide)

/-! ## Claim C3 -/

/-- C3 as stated is false: the legacy identifier bitcoin:0xabc parses
successfully (erc20 on the bitcoin network), but rebuilding from the
parsed components yields the plain string bitcoin, not the input. -/
theorem c3_counterexample :
    parseAssetId "bitcoin:0xabc"
      = .ok ⟨"bitcoin:0xabc", "bitcoin", some "0xabc", none, .erc20⟩ ∧
    buildAssetId "bitcoin" (some "0xabc") none = "bitcoin" ∧
    ("bitcoin" : String) ≠ "bitcoin:0xabc" := by
  refine ⟨by decide, by decide, by decide⟩

/-- C3 amended: for a legacy (slash-free) identifier on which the parse
succeeds, rebuilding reproduces the input exactly, provided the parsed
network is not bitcoin when a contract address is present and no parsed
contract address or token id is the empty string (the bitcoin short-circuit
and JavaScript falsiness of the empty string are the only failure modes). -/
theorem c3_legacy_roundtrip (s : String) (info : AssetInfo)
    (hs : '/' ∉ s.data)
    (h : parseAssetId s = .ok info)
    (hb : info.contractAddress = none ∨ info.networkId ≠ "bitcoin")
    (hc : ∀ x, info.contractAddress = some x → x ≠ "")
    (ht : ∀ x, info.tokenId = some x → x ≠ "") :
    buildAssetId info.networkId info.contractAddress info.tokenId = s := by
  rw [parseAssetId, if_neg hs] at h
  by_cases hbit : s = "bitcoin"
  · rw [if_pos hbit] at h
    injection h with h2
    subst h2
    rw [buildAssetId, if_pos rfl]
    exact hbit.symm
  · rw [if_neg hbit] at h
    rcases hsp : splitOnChar ':' s.data with _ | ⟨n, _ | ⟨c, _ | ⟨t, _ | ⟨e, rest⟩⟩⟩⟩
    · exact absurd hsp (splitOnChar_ne_nil ':' s.data)
    · rw [hsp] at h
      injection h with h2
      subst h2
      have hdata : s.data = n := by
        have hj := joinChar_splitOnChar ':' s.data
        rw [hsp] at hj
        exact hj.symm
      have hSn : (⟨n⟩ : String) = s :=
        stringDataExt (show (⟨n⟩ : String).data = s.data by rw [hdata])
      show buildAssetId ⟨n⟩ none none = s
      rw [buildAssetId]
      rw [if_neg (fun hEq => hbit (by rw [← hSn]; exact hEq))]
      rw [if_pos (show falsy none = true from rfl)]
      exact hSn
    · rw [hsp] at h
      injection h with h2
      subst h2
      have hdata : s.data = n ++ ':' :: c := by
        have hj := joinChar_splitOnChar ':' s.data
        rw [hsp] at hj
        exact hj.symm
      have hnb : (⟨n⟩ : String) ≠ "bitcoin" := by
        rcases hb with hb | hb
        · exact Option.noConfusion hb
        · exact hb
      have hcne : (⟨c⟩ : String) ≠ "" := hc ⟨c⟩ rfl
      show buildAssetId ⟨n⟩ (some ⟨c⟩) none = s
      rw [buildAssetId, if_neg hnb,
        if_neg (show ¬falsy (some ⟨c⟩) = true by simp [falsy, hcne]),
        if_pos (show falsy none = true from rfl)]
      apply stringDataExt
      show ((⟨n⟩ : String) ++ ":" ++ (⟨c⟩ : String)).data = s.data
      rw [hdata, String.data_append, String.data_append]
      show (n ++ [':']) ++ c = n ++ ':' :: c
      simp
    · rw [hsp] at h
      injection h with h2
      subst h2
      have hdata : s.data = n ++ ':' :: (c ++ ':' :: t) := by
        have hj := joinChar_splitOnChar ':' s.data
        rw [hsp] at hj
        exact hj.symm
      have hnb : (⟨n⟩ : String) ≠ "bitcoin" := by
        rcases hb with hb | hb
        · exact Option.noConfusion hb
        · exact hb
      have hcne : (⟨c⟩ : String) ≠ "" := hc ⟨c⟩ rfl
      have htne : (⟨t⟩ : String) ≠ "" := ht ⟨t⟩ rfl
      show buildAssetId ⟨n⟩ (some ⟨c⟩) (some ⟨t⟩) = s
      rw [buildAssetId, if_neg hnb,
        if_neg (show ¬falsy (some ⟨c⟩) = true by simp [falsy, hcne]),
        if_neg (show ¬falsy (some ⟨t⟩) = true by simp [falsy, htne])]
      apply stringDataExt
      show ((⟨n⟩ : String) ++ ":" ++ (⟨c⟩ : String) ++ ":" ++ (⟨t⟩ : String)).data
        = s.data
      rw [hdata, String.data_append, String.data_append, String.data_append,
        String.data_append]
      show ((n ++ [':']) ++ c ++ [':']) ++ t = n ++ ':' :: (c ++ ':' :: t)
      simp
    · rw [hsp] at h
      exact Except.noConfusion h

/-- Witness for C3 amended at a concrete three-segment legacy identifier. -/
theorem c3_legacy_roundtrip_witness :
    buildAssetId "ethereum" (some "0xabc") (some "7") = "ethereum:0xabc:7" :=
  c3_legacy_roundtrip "ethereum:0xabc:7"
    ⟨"ethereum:0xabc:7", "ethereum", some "0xabc", some "7", .erc721⟩
    (by decide) (by decide) (Or.inr (by decide))
    (fun x hx => by cases hx; decide)
    (fun x hx => by cases hx; decide)

/-! ## Claim C6 -/

/-- C6: getBalance and getHistory return exactly the envelope of the
UTXO-ledger provider when the parsed type is bitcoin and of the EVM
provider otherwise, for every possible provider behaviour; and getGas on
the bitcoin network is the constant unsupported-operation failure envelope,
independent of the gas provider and without consulting it. -/
theorem c6_dispatch_routing {γ η : Type}
    (btcBal : String → ApiResponse BalanceResponse)
    (evmBal : String → String → ApiResponse BalanceResponse)
    (btcHist : String → Nat → Nat → ApiResponse η)
    (evmHist : String → String → Nat → Nat → ApiResponse η)
    (evmGas : String → GasType → ApiResponse γ)
    (address assetId : String) (info : AssetInfo) (page limit : Nat) (t : GasType)
    (h : parseAssetId assetId = .ok info) :
    getBalanceSvc btcBal evmBal address assetId
      = (if info.type = .bitcoin then btcBal address else evmBal address assetId) ∧
    getHistorySvc btcHist evmHist address assetId page limit
      = (if info.type = .bitcoin then btcHist address page limit
          else evmHist address assetId page limit) ∧
    getGasSvc evmGas "bitcoin" t
      = errResponse "UNSUPPORTED_NETWORK" "Gas price not applicable for Bitcoin" := by
  refine ⟨?_, ?_, by rw [getGasSvc, if_pos rfl]⟩
  · simp only [getBalanceSvc, h]
  · simp only [getHistorySvc, h]

/-- Witness for C6: concrete routing of a bitcoin balance request and a
bitcoin gas request. -/
theorem c6_dispatch_routing_witness :
    getBalanceSvc (fun _ => okResponse ⟨"1", "1", "bitcoin", "bitcoin", 0⟩)
        (fun _ _ => errResponse "E" "m") "addr" "bitcoin"
      = (if AssetType.bitcoin = AssetType.bitcoin
          then okResponse ⟨"1", "1", "bitcoin", "bitcoin", 0⟩
          else errResponse "E" "m") ∧
    getGasSvc (fun (_ : String) (_ : GasType) => okResponse (0 : Nat)) "bitcoin"
        .eip1559
      = errResponse "UNSUPPORTED_NETWORK" "Gas price not applicable for Bitcoin" := by
  have h := c6_dispatch_routing
    (fun _ => okResponse ⟨"1", "1", "bitcoin", "bitcoin", 0⟩)
    (fun _ _ => errResponse "E" "m")
    (fun _ _ _ => okResponse (0 : Nat))
    (fun _ _ _ _ => okResponse (0 : Nat))
    (fun _ _ => okResponse (0 : Nat))
    "addr" "bitcoin" ⟨"bitcoin", "bitcoin", none, none, .bitcoin⟩ 1 50 .eip1559
    (by decide)
  exact ⟨h.1, h.2.2⟩

/-! ## Claim C7 -/

/-- Well-formedness of an envelope: data is present exactly on success,
the error object exactly on failure (so exactly one is populated). -/
def EnvelopeWF {α : Type} (r : ApiResponse α) : Prop :=
  (r.data).isSome = r.success ∧ (r.error).isSome = !r.success

/-- C7: every dispatcher operation is a total function into envelopes (the
parse step never lets an exception escape), and assuming each provider
returns well-formed envelopes, every returned envelope has exactly one of
data and error populated, with data present exactly when success is true. -/
theorem c7_envelope_discipline {γ η π ρ ω μ σ : Type}
    (btcBal : String → ApiResponse BalanceResponse)
    (evmBal : String → String → ApiResponse BalanceResponse)
    (evmGas : String → GasType → ApiResponse γ)
    (cgPrice : String → String → ApiResponse π)
    (cgHist : String → Nat → String → ApiResponse ρ)
    (btcHist : String → Nat → Nat → ApiResponse η)
    (evmHist : String → String → Nat → Nat → ApiResponse η)
    (evmOwners : String → String → Option String → ApiResponse ω)
    (evmOwned : String → String → Option String → ApiResponse ω)
    (evmMeta : String → ApiResponse TokenMetadataResponse)
    (evmNftMeta : String → ApiResponse μ)
    (cgMulti : List String → String → ApiResponse (List (String × σ)))
    (address assetId networkId owner contractAddress currency : String)
    (tokenId contractAddressQ : Option String)
    (page limit days : Nat) (t : GasType) (assetIds : List String)
    (hbtcBal : ∀ a, EnvelopeWF (btcBal a))
    (hevmBal : ∀ a i, EnvelopeWF (evmBal a i))
    (hevmGas : ∀ n x, EnvelopeWF (evmGas n x))
    (hcgPrice : ∀ a c, EnvelopeWF (cgPrice a c))
    (hcgHist : ∀ a d c, EnvelopeWF (cgHist a d c))
    (hbtcHist : ∀ a p l, EnvelopeWF (btcHist a p l))
    (hevmHist : ∀ a i p l, EnvelopeWF (evmHist a i p l))
    (hevmOwners : ∀ c n x, EnvelopeWF (evmOwners c n x))
    (hevmOwned : ∀ o n c, EnvelopeWF (evmOwned o n c))
    (hevmMeta : ∀ a, EnvelopeWF (evmMeta a))
    (hevmNftMeta : ∀ a, EnvelopeWF (evmNftMeta a))
    (hcgMulti : ∀ a c, EnvelopeWF (cgMulti a c)) :
    EnvelopeWF (getBalanceSvc btcBal evmBal address assetId) ∧
    EnvelopeWF (getGasSvc evmGas networkId t) ∧
    EnvelopeWF (getPriceSvc cgPrice assetId currency) ∧
    EnvelopeWF (getPriceHistorySvc cgHist assetId days currency) ∧
    EnvelopeWF (getHistorySvc btcHist evmHist address assetId page limit) ∧
    EnvelopeWF (getNftOwnersSvc evmOwners contractAddress networkId tokenId) ∧
    EnvelopeWF (getNftsForOwnerSvc evmOwned owner networkId contractAddressQ) ∧
    EnvelopeWF (getTokenMetadataSvc evmMeta assetId) ∧
    EnvelopeWF (getNftMetadataSvc evmNftMeta assetId) ∧
    EnvelopeWF (getMultipleBalancesSvc btcBal evmBal address assetIds) ∧
    EnvelopeWF (getMultiplePricesSvc cgMulti assetIds currency) ∧
    EnvelopeWF (getPortfolioSummarySvc btcBal evmBal cgMulti address assetIds
      currency) := by
  refine ⟨?_, ?_, hcgPrice _ _, hcgHist _ _ _, ?_, ?_, ?_, ?_, ?_, ⟨rfl, rfl⟩,
    hcgMulti _ _, ?_⟩
  · unfold getBalanceSvc
    split
    · exact ⟨rfl, rfl⟩
    · split
      · exact hbtcBal _
      · exact hevmBal _ _
  · unfold getGasSvc
    split
    · exact ⟨rfl, rfl⟩
    · exact hevmGas _ _
  · unfold getHistorySvc
    split
    · exact ⟨rfl, rfl⟩
    · split
      · exact hbtcHist _ _ _
      · exact hevmHist _ _ _ _
  · unfold getNftOwnersSvc
    split
    · exact ⟨rfl, rfl⟩
    · exact hevmOwners _ _ _
  · unfold getNftsForOwnerSvc
    split
    · exact ⟨rfl, rfl⟩
    · exact hevmOwned _ _ _
  · unfold getTokenMetadataSvc
    split
    · exact ⟨rfl, rfl⟩
    · split
      · exact ⟨rfl, rfl⟩
      · exact hevmMeta _
  · unfold getNftMetadataSvc
    split
    · exact ⟨rfl, rfl⟩
    · split
      · exact ⟨rfl, rfl⟩
      · exact hevmNftMeta _
  · simp only [getPortfolioSummarySvc]
    split
    · exact ⟨rfl, rfl⟩
    · exact ⟨rfl, rfl⟩

/-- Witness for C7: well-formedness at concrete constant providers, on a
malformed asset id (exercising the caught parse failure) and a bitcoin gas
request. -/
theorem c7_envelope_discipline_witness :
    EnvelopeWF (getBalanceSvc (fun _ => okResponse ⟨"1", "1", "bitcoin", "bitcoin", 0⟩)
      (fun _ _ => okResponse ⟨"0", "0", "ethereum", "ethereum", 0⟩) "addr" "a:b:c:d") ∧
    EnvelopeWF (getGasSvc (fun (_ : String) (_ : GasType) => okResponse (0 : Nat))
      "bitcoin" .eip1559) := by
  have h := c7_envelope_discipline
    (fun _ => okResponse ⟨"1", "1", "bitcoin", "bitcoin", 0⟩)
    (fun _ _ => okResponse ⟨"0", "0", "ethereum", "ethereum", 0⟩)
    (fun _ _ => okResponse (0 : Nat))
    (fun _ _ => okResponse (0 : Nat))
    (fun _ _ _ => okResponse (0 : Nat))
    (fun _ _ _ => okResponse (0 : Nat))
    (fun _ _ _ _ => okResponse (0 : Nat))
    (fun _ _ _ => okResponse (0 : Nat))
    (fun _ _ _ => okResponse (0 : Nat))
    (fun _ => okResponse bitcoinMetadata)
    (fun _ => okResponse (0 : Nat))
    (fun _ _ => okResponse ([] : List (String × Nat)))
    "addr" "a:b:c:d" "bitcoin" "own" "0xc" "usd"
    none none 1 50 7 .eip1559 []
    (fun _ => ⟨rfl, rfl⟩) (fun _ _ => ⟨rfl, rfl⟩) (fun _ _ => ⟨rfl, rfl⟩)
    (fun _ _ => ⟨rfl, rfl⟩) (fun _ _ _ => ⟨rfl, rfl⟩) (fun _ _ _ => ⟨rfl, rfl⟩)
    (fun _ _ _ _ => ⟨rfl, rfl⟩) (fun _ _ _ => ⟨rfl, rfl⟩) (fun _ _ _ => ⟨rfl, rfl⟩)
    (fun _ => ⟨rfl, rfl⟩) (fun _ => ⟨rfl, rfl⟩) (fun _ _ => ⟨rfl, rfl⟩)
  exact ⟨h.1, h.2.1⟩

/-! ## Claim C5 -/

/-- C5 as stated is false: when the single balance sub-call of a
getMultipleBalances operation fails, the operation still returns a success
envelope, with the failed sub-result silently omitted from the aggregate,
instead of a failure envelope. -/
theorem c5_counterexample :
    ((getBalanceSvc (fun _ => errResponse "BITCOIN_BALANCE_FETCH_ERROR" "fail")
        (fun _ _ => errResponse "BALANCE_FETCH_ERROR" "fail")
        "addr" "bitcoin").success = false) ∧
    ((getMultipleBalancesSvc (fun _ => errResponse "BITCOIN_BALANCE_FETCH_ERROR" "fail")
        (fun _ _ => errResponse "BALANCE_FETCH_ERROR" "fail")
        "addr" ["bitcoin"]).success = true) ∧
    ((getMultipleBalancesSvc (fun _ => errResponse "BITCOIN_BALANCE_FETCH_ERROR" "fail")
        (fun _ _ => errResponse "BALANCE_FETCH_ERROR" "fail")
        "addr" ["bitcoin"]).data = some []) := by
  exact ⟨rfl, rfl, rfl⟩

/-- C5 amended: getPortfolioSummary does fail whenever either joined
aggregate envelope reports failure, but getMultipleBalances never reports
failure (it drops failed sub-results), so the portfolio operation fails
exactly when the joined multiple-price call fails and individual balance
sub-call failures are aggregated away inside a success envelope. -/
theorem c5_join_behavior {σ : Type}
    (btcBal : String → ApiResponse BalanceResponse)
    (evmBal : String → String → ApiResponse BalanceResponse)
    (cgMulti : List String → String → ApiResponse (List (String × σ)))
    (address currency : String) (assetIds : List String) :
    (getMultipleBalancesSvc btcBal evmBal address assetIds).success = true ∧
    (getPortfolioSummarySvc btcBal evmBal cgMulti address assetIds currency).success
      = (cgMulti assetIds currency).success := by
  refine ⟨rfl, ?_⟩
  cases hs : (cgMulti assetIds currency).success <;>
    simp [getPortfolioSummarySvc, getMultiplePricesSvc, getMultipleBalancesSvc, hs,
      okResponse, errResponse]

/-! ## Claim C8 -/

/-- C8: classification of a Bitcoin history entry.  If the queried address
appears among the spent inputs and not among the outputs, the entry is a
send whose value is the sum of all output values; if it appears only among
the outputs, a receive whose value is the first matching output value; if
it appears in both or in neither, a send with value 0. -/
theorem c8_btc_history_classification (address : String) (tx : BtcTx) :
    (((∃ i ∈ tx.vin, i.prevout_address = some address) ∧
        (∀ o ∈ tx.vout, o.scriptpubkey_address ≠ some address)) →
      (btcClassify address tx).type = .send ∧
      (btcClassify address tx).value
        = ⟨natToDecChars (tx.vout.foldl (fun sum o => sum + o.value) 0)⟩) ∧
    (((∀ i ∈ tx.vin, i.prevout_address ≠ some address) ∧
        (∃ o ∈ tx.vout, o.scriptpubkey_address = some address)) →
      (btcClassify address tx).type = .receive ∧
      (∀ o, tx.vout.find? (fun o => o.scriptpubkey_address == some address)
          = some o →
        (btcClassify address tx).value = ⟨natToDecChars o.value⟩)) ∧
    ((((∃ i ∈ tx.vin, i.prevout_address = some address) ∧
        (∃ o ∈ tx.vout, o.scriptpubkey_address = some address)) ∨
      ((∀ i ∈ tx.vin, i.prevout_address ≠ some address) ∧
        (∀ o ∈ tx.vout, o.scriptpubkey_address ≠ some address))) →
      (btcClassify address tx).type = .send ∧
      (btcClassify address tx).value = "0") := by
  have hval : (⟨natToDecChars 0⟩ : String) = "0" := by decide
  have findSome : ∀ {β : Type} (p : β → Bool) (l : List β) (x : β), x ∈ l →
      p x = true → ∃ y, l.find? p = some y := by
    intro β p l x hx hpx
    cases hfi : l.find? p with
    | none => exact absurd hpx (List.find?_eq_none.mp hfi x hx)
    | some y => exact ⟨y, rfl⟩
  refine ⟨fun hA => ?_, fun hB => ?_, fun hC => ?_⟩
  · obtain ⟨⟨i0, hi0, hieq⟩, hallO⟩ := hA
    have hOn : tx.vout.find? (fun o => o.scriptpubkey_address == some address)
        = none :=
      List.find?_eq_none.mpr (fun o ho => by simpa using hallO o ho)
    obtain ⟨i1, hIs⟩ := findSome (fun i => i.prevout_address == some address) tx.vin i0 hi0
      (by simp [hieq])
    constructor <;> simp [btcClassify, hIs, hOn]
  · obtain ⟨hallI, o0, ho0, hoeq⟩ := hB
    have hIn : tx.vin.find? (fun i => i.prevout_address == some address) = none :=
      List.find?_eq_none.mpr (fun i hi => by simpa using hallI i hi)
    obtain ⟨o1, hOs⟩ := findSome (fun o => o.scriptpubkey_address == some address) tx.vout o0 ho0
      (by simp [hoeq])
    refine ⟨by simp [btcClassify, hIn, hOs], ?_⟩
    intro o hoo
    rw [hOs] at hoo
    injection hoo with hoo2
    subst hoo2
    simp [btcClassify, hIn, hOs]
  · rcases hC with ⟨⟨i0, hi0, hieq⟩, o0, ho0, hoeq⟩ | ⟨hallI, hallO⟩
    · obtain ⟨i1, hIs⟩ := findSome (fun i => i.prevout_address == some address)
        tx.vin i0 hi0 (by simp [hieq])
      obtain ⟨o1, hOs⟩ := findSome (fun o => o.scriptpubkey_address == some address)
        tx.vout o0 ho0 (by simp [hoeq])
      constructor <;> simp [btcClassify, hIs, hOs, hval]
    · have hIn : tx.vin.find? (fun i => i.prevout_address == some address) = none :=
        List.find?_eq_none.mpr (fun i hi => by simpa using hallI i hi)
      have hOn : tx.vout.find? (fun o => o.scriptpubkey_address == some address)
          = none :=
        List.find?_eq_none.mpr (fun o ho => by simpa using hallO o ho)
      constructor <;> simp [btcClassify, hIn, hOn, hval]

/-- Witness for C8: a concrete one-input one-output transaction spent by
the queried address classifies as a send carrying the output sum. -/
theorem c8_btc_history_classification_witness :
    (btcClassify "a" ⟨"h", [⟨some "a"⟩], [⟨some "b", 7⟩], none, ⟨true, 1, 2⟩⟩).type
      = .send ∧
    (btcClassify "a" ⟨"h", [⟨some "a"⟩], [⟨some "b", 7⟩], none, ⟨true, 1, 2⟩⟩).value
      = ⟨natToDecChars ([(⟨some "b", 7⟩ : BtcVout)].foldl
          (fun sum o => sum + o.value) 0)⟩ :=
  (c8_btc_history_classification "a"
    ⟨"h", [⟨some "a"⟩], [⟨some "b", 7⟩], none, ⟨true, 1, 2⟩⟩).1 (by decide)

example : parseAssetId "bitcoin" =
    .ok ⟨"bitcoin", "bitcoin", none, none, .bitcoin⟩ := by decide
example : parseAssetId "ethereum:0xa:5" =
    .ok ⟨"ethereum:0xa:5", "ethereum", some "0xa", some "5", .erc721⟩ := by decide
example : parseAssetId "eip155:1/erc20:0xA" =
    .ok ⟨"eip155:1/erc20:0xA", "ethereum", some "0xA", none, .erc20⟩ := by decide
example : parseAssetId "bip122:000/slip44:0" =
    .ok ⟨"bip122:000/slip44:0", "bitcoin", none, none, .bitcoin⟩ := by decide
example : parseAssetId "bip122:000/erc20:0xA" =
    .ok ⟨"bip122:000/erc20:0xA", "bitcoin", some "0xA", none, .erc20⟩ := by decide
example : weiToEther "1500000000000000000" = "1.5" := by decide
example : etherToWei "1.5" = "1500000000000000000" := by decide
example : satoshiToBitcoin "100000000" = "1" := by decide
